import Mathlib

/-!
Verification of the pod-discover recommendation engine.

Shallow embedding of the core recommendation code:
`src/pod_discover/scoring.py`, `src/pod_discover/config.py`,
`src/pod_discover/recommender.py` and the cache / mention-store
operations of `src/pod_discover/db.py`.

Numeric scoring functions are modelled over the reals (the Python code
uses `math.exp`); discrete data (episodes, caches, rankings, mention
rows) is modelled with executable structures over `Int` / `Rat` /
`String`.  Python dictionaries are modelled as association lists in
insertion order, which is the iteration order Python guarantees.
-/

namespace PodDiscover

/-- `models.py`: the `Episode` pydantic model, restricted to the fields the
recommendation core reads (`id`, `feed_id`, `feed_title`,
`duration_seconds`).  `feed_id` is `int | None` in the source. -/
structure Episode where
  id : Int
  feed_title : String := ""
  feed_id : Option Int := none
  duration_seconds : Option Int := none
  deriving DecidableEq, Repr

/-- One entry of the JSON array returned by the ranking model call:
`{"id": ..., "score": ..., "reason": ...}` (recommender.py, RANK step). -/
structure RankEntry where
  id : Int
  score : Int
  reason : String := ""
  deriving DecidableEq, Repr

/-- Python truthiness of an `int | None` value: `None` and `0` are falsy.
Used by `recommender.py` in `if ep.feed_id and ...` and `if ep.feed_id:`. -/
def feedTruthy : Option Int → Bool
  | none => false
  | some f => f != 0

/-- `config.py`: the `RecommendationWeights` class (six float constants),
modelled with exact rationals. -/
structure RecommendationWeights where
  AI_MATCH : ℚ
  DURATION_MATCH : ℚ
  RECENCY : ℚ
  TRENDING : ℚ
  SOCIAL_BUZZ : ℚ
  POPULARITY : ℚ
  deriving DecidableEq, Repr

/-- The default weights of `config.py` lines 23-30. -/
def defaultWeights : RecommendationWeights :=
  { AI_MATCH := 1/2
    DURATION_MATCH := 1/20
    RECENCY := 1/10
    TRENDING := 3/20
    SOCIAL_BUZZ := 1/10
    POPULARITY := 1/10 }

/-- `config.py` `RecommendationWeights.validate`: the summed total. -/
def weightsTotal (w : RecommendationWeights) : ℚ :=
  w.AI_MATCH + w.DURATION_MATCH + w.RECENCY + w.TRENDING + w.SOCIAL_BUZZ + w.POPULARITY

/-- `config.py` `RecommendationWeights.validate` (lines 32-45): raises
`AssertionError` when `abs(total - 1.0) >= 0.001`, else returns `True`.
Modelled as `Except`: `.error` is the raised assertion. -/
def validate (w : RecommendationWeights) : Except String Bool :=
  if |weightsTotal w - 1| ≥ 1/1000 then
    .error "Weights must sum to 1.0"
  else
    .ok true

/-- `config.py` line 53: `TRENDING_CACHE_TTL = 4 * 60 * 60` seconds. -/
def TRENDING_CACHE_TTL : ℚ := 4 * 60 * 60

/-- Association-list lookup modelling Python `d[k]` / `k in d` over a dict
in insertion order (first binding wins, as keys are unique in a dict). -/
def alookup {α : Type} [BEq α] {β : Type} (l : List (α × β)) (k : α) : Option β :=
  (l.find? (fun p => p.1 == k)).map (fun p => p.2)

/-- Clamp to `[0,1]`: the `max(0.0, min(1.0, score))` idiom of `scoring.py`. -/
noncomputable def clamp01 (x : ℝ) : ℝ := max 0 (min 1 x)

/-- `scoring.py` `calculate_social_score` (lines 51-85).  `reddit_mentions`
maps podcast name to mention count; lookup is exact and case-sensitive.
All arithmetic is rational, so the model is executable over `ℚ`. -/
def calculate_social_score (podcast_name : String) (reddit_mentions : List (String × Int)) : ℚ :=
  match alookup reddit_mentions podcast_name with
  | none => 0
  | some mentions =>
    if mentions = 0 then 0
    else if mentions ≥ 10 then 1
    else if mentions ≥ 5 then 7/10 + (mentions - 5) * ((9/10 - 7/10) / (9 - 5))
    else 3/10 + (mentions - 1) * ((6/10 - 3/10) / (4 - 1))

/-- `scoring.py` `calculate_popularity_score` (lines 88-104): constant 0.5. -/
def calculate_popularity_score (_episode : Episode) : ℚ := 1/2

noncomputable section

/-- `scoring.py` `calculate_trending_score` (lines 18-48).  `trending_data`
maps feed id to a dict whose `"rank"` key may be absent (`Option Int`).
Score is `exp(-0.025 * rank)` clamped to `[0,1]`; absent feed or rank
gives 0. -/
def calculate_trending_score (feed_id : Int) (trending_data : List (Int × Option Int)) : ℝ :=
  if trending_data.isEmpty then 0
  else
    match alookup trending_data feed_id with
    | none => 0
    | some none => 0
    | some (some rank) => clamp01 (Real.exp (-(1/40) * (rank : ℝ)))

/-- The rank-to-score curve of `calculate_trending_score` on a found rank:
`clamp01 (exp (-0.025 * rank))`. -/
def trendRankScore (rank : Int) : ℝ := clamp01 (Real.exp (-(1/40) * (rank : ℝ)))

/-- `scoring.py` `calculate_recency_score` (lines 107-154).  The ISO-8601
parse of `episode.date_published` is modelled by an `Option ℚ` publish
instant (seconds); `none` covers both a missing field and an unparseable
date (the `except` branch).  `now` is the current instant in seconds. -/
def calculate_recency_score (pubInstant : Option ℚ) (now : ℚ) : ℝ :=
  match pubInstant with
  | none => 0
  | some t =>
    let age_days : ℚ := (now - t) / 86400
    clamp01 (Real.exp (-(age_days : ℝ) * Real.log 2 / 25))

/-- `scoring.py` `calculate_duration_match` (lines 157-187).  Gaussian in
the minute difference with sigma 27, clamped; missing duration gives 0. -/
def calculate_duration_match (duration_seconds : Option Int)
    (preferred_duration_minutes : ℚ := 30) : ℝ :=
  match duration_seconds with
  | none => 0
  | some d =>
    let duration_minutes : ℚ := (d : ℚ) / 60
    let diff : ℚ := |duration_minutes - preferred_duration_minutes|
    clamp01 (Real.exp (-((diff : ℝ) ^ 2) / (2 * 27 ^ 2)))

/-- `scoring.py` `calculate_composite_score` (lines 190-228): weighted sum
of the six component scores, clamped to `[0,1]`. -/
def calculate_composite_score (trending_score social_score popularity_score
    recency_score duration_score ai_score : ℝ)
    (weights : RecommendationWeights := defaultWeights) : ℝ :=
  clamp01 (trending_score * (weights.TRENDING : ℝ) +
    social_score * (weights.SOCIAL_BUZZ : ℝ) +
    popularity_score * (weights.POPULARITY : ℝ) +
    recency_score * (weights.RECENCY : ℝ) +
    duration_score * (weights.DURATION_MATCH : ℝ) +
    ai_score * (weights.AI_MATCH : ℝ))

end

/-! ### Candidate aggregation (recommender.py, Step 2, lines 156-182) -/

/-- The shared dedup-by-id loop of `recommender.py` (`seen_ids` /
`all_episodes`): keep an episode only when its id has not been seen. -/
def dedupById : List Episode → List Int → List Episode
  | [], _ => []
  | e :: rest, seen =>
    if e.id ∈ seen then dedupById rest seen
    else e :: dedupById rest (e.id :: seen)

/-- `recommender.py` lines 161-182: the four source result sets, gathered
with `return_exceptions=True` (`none` models a source that raised), are
merged in the fixed gather order with a shared `seen_ids` set.  The
nested loop over the four lists with one shared seen-set equals
deduplication of the concatenation in source order. -/
def aggregate (s1 s2 s3 s4 : Option (List Episode)) : List Episode :=
  dedupById (s1.getD [] ++ s2.getD [] ++ s3.getD [] ++ s4.getD []) []

/-! ### SCORE phase of recommend (recommender.py, lines 226-267) -/

/-- Lookup in `ranking_dict = {r["id"]: r for r in rankings}`: a Python
dict comprehension keeps the LAST entry for a duplicated key, hence the
reversed search. -/
def rankingDict (rankings : List RankEntry) (i : Int) : Option RankEntry :=
  rankings.reverse.find? (fun r => r.id == i)

/-- The SCORE-phase selection loop of `recommend` (lines 229-267), before
the final sort: walk `all_episodes` in order with a `seen_feeds` set;
skip an episode whose (truthy) feed id was already seen; skip an episode
the ranking model did not mention; otherwise keep it (paired with its
ranking entry) and mark its feed as seen when the feed id is truthy. -/
def scoreLoop (rankings : List RankEntry) :
    List Episode → List Int → List (Episode × RankEntry)
  | [], _ => []
  | ep :: rest, seenFeeds =>
    if feedTruthy ep.feed_id ∧ ep.feed_id.getD 0 ∈ seenFeeds then
      scoreLoop rankings rest seenFeeds
    else
      match rankingDict rankings ep.id with
      | none => scoreLoop rankings rest seenFeeds
      | some r =>
        (ep, r) :: scoreLoop rankings rest
          (if feedTruthy ep.feed_id then ep.feed_id.getD 0 :: seenFeeds else seenFeeds)

/-- `ranked_episodes` as built by lines 226-267 (entry order = iteration
order over `all_episodes`; the subsequent line 270 sort by composite
score is a permutation of this list). -/
def rankedEpisodes (all_episodes : List Episode) (rankings : List RankEntry) :
    List (Episode × RankEntry) :=
  scoreLoop rankings all_episodes []

/-- The first candidate of feed `f` that the ranking model mentioned, in
`all_episodes` order: the episode the SCORE loop actually keeps. -/
def firstRankedOfFeed (all_episodes : List Episode) (rankings : List RankEntry)
    (f : Int) : Option Episode :=
  all_episodes.find? (fun e => e.feed_id == some f && (rankingDict rankings e.id).isSome)

/-- The competing rule as the spec words it ("first
encountered in the AI ranking order — the top AI pick for that feed"):
the id of the first entry of the ranking array that belongs to a
candidate of feed `f`. -/
def firstInRankingOrderOfFeed (all_episodes : List Episode) (rankings : List RankEntry)
    (f : Int) : Option Int :=
  (rankings.find? (fun r =>
    (all_episodes.find? (fun e => e.id == r.id && e.feed_id == some f)).isSome)).map
    (fun r => r.id)

/-- `recommender.py` line 243: the orchestrator computes the social score
as `calculate_social_score(ep.feed_title or "", reddit_mentions)`; the
`or ""` is the identity on strings (an empty title is replaced by the
empty string).  No case normalization is applied. -/
def recommendSocialScore (ep : Episode) (reddit_mentions : List (String × Int)) : ℚ :=
  calculate_social_score ep.feed_title reddit_mentions

/-! ### Trending cache manager (recommender.py `_get_trending_data`,
db.py trending-cache operations) -/

/-- The trending snapshot: `{"podcasts": {feed_id: {"rank": ...}},
"episodes": {episode_id: {"rank": rank}}}`. -/
structure TrendingSnapshot where
  podcasts : List (Int × Option Int)
  episodes : List (Int × Int)
  deriving DecidableEq, Repr

/-- A stored `trending_cache` row: the snapshot plus its `cached_at`
instant (seconds). -/
structure TrendCacheRow where
  data : TrendingSnapshot
  cachedAt : ℚ
  deriving DecidableEq, Repr

/-- `db.py` `is_trending_cache_stale` (lines 285-294): stale when no row
exists or the age strictly exceeds `max_age_seconds`. -/
def is_trending_cache_stale (row : Option TrendCacheRow) (now max_age_seconds : ℚ) : Bool :=
  match row with
  | none => true
  | some c => now - c.cachedAt > max_age_seconds

/-- `recommender.py` `_get_trending_data` line 364-366: build the episode
rank dict from list order (`enumerate`). -/
def enumerateRanks (eps : List Episode) : List (Int × Int) :=
  eps.enum.map (fun p => (p.2.id, (p.1 : Int)))

/-- `recommender.py` `_get_trending_data` (lines 355-382).  The two
directory fetches of the refresh branch are modelled as `Except`
results; the function body has no exception handler, so a failing fetch
propagates (`.error`).  The non-stale branch returns the stored
snapshot, falling back to the empty snapshot when no row exists. -/
def getTrendingData (row : Option TrendCacheRow) (now : ℚ)
    (fetchPodcasts : Except Unit (List (Int × Option Int)))
    (fetchEpisodes : Except Unit (List Episode)) :
    Except Unit TrendingSnapshot :=
  if is_trending_cache_stale row now TRENDING_CACHE_TTL then
    match fetchPodcasts with
    | .error e => .error e
    | .ok pods =>
      match fetchEpisodes with
      | .error e => .error e
      | .ok eps => .ok { podcasts := pods, episodes := enumerateRanks eps }
  else
    match row with
    | some c => .ok c.data
    | none => .ok { podcasts := [], episodes := [] }

/-! ### Reddit mentions (db.py `get_reddit_mentions`, recommender.py
`_get_episodes_from_reddit_mentions`) -/

/-- A row of the `reddit_mentions` table: lowercased podcast name,
mention count, `updated_at` instant (seconds). -/
structure MentionRow where
  podcast_name : String
  mention_count : Int
  updatedAt : ℚ
  deriving DecidableEq, Repr

/-- `db.py` `get_reddit_mentions` (lines 325-338): rows with
`updated_at > now - max_age_hours`, in table order, as a name-to-count
dict. -/
def get_reddit_mentions (rows : List MentionRow) (now : ℚ) (max_age_hours : ℚ) :
    List (String × Int) :=
  (rows.filter (fun r => now - max_age_hours * 3600 < r.updatedAt)).map
    (fun r => (r.podcast_name, r.mention_count))

/-- `recommender.py` line 336: `list(reddit_mentions.keys())[:3]` — the
first three dict keys in insertion order (no sort by count). -/
def redditMentionSelection (reddit_mentions : List (String × Int)) : List String :=
  (reddit_mentions.map (fun p => p.1)).take 3

/-- Lines 335-337: the search requests issued for the selected names,
each with `max_results=2`. -/
def redditSearchRequests (reddit_mentions : List (String × Int)) : List (String × Nat) :=
  (redditMentionSelection reddit_mentions).map (fun n => (n, 2))

/-- Stable insertion of a mention entry into a count-descending list
(earlier entries win ties). -/
def insertByCountDesc (p : String × Int) : List (String × Int) → List (String × Int)
  | [] => [p]
  | q :: rest => if q.2 ≥ p.2 then q :: insertByCountDesc p rest else p :: q :: rest

/-- Stable sort of mention entries by descending count. -/
def sortByCountDesc : List (String × Int) → List (String × Int)
  | [] => []
  | p :: rest => insertByCountDesc p (sortByCountDesc rest)

/-- The competing rule as the spec words it ("the top 3
podcasts by mention count"): names of the three largest counts,
descending, ties by earlier position. -/
def top3ByCount (reddit_mentions : List (String × Int)) : List String :=
  ((sortByCountDesc reddit_mentions).map (fun p => p.1)).take 3

/-! ### Response cache and the cache-hit path of recommend
(recommender.py lines 126-142, db.py lines 182-211) -/

/-- The result dict of `recommend`, restricted to the fields the claims
touch. -/
structure RecResult where
  episodes : List (Episode × RankEntry)
  queries_used : List String
  cached : Bool
  deriving DecidableEq, Repr

/-- A row of `recommendations_cache`: `(profile_hash, user_request)` is
unique; `created_at` in minutes for the SQL freshness comparison.  The
row stores `json.dumps(result)`; the JSON round trip is modelled as the
identity, so `response` carries the `RecResult` itself. -/
structure CacheRow where
  profile_hash : String
  user_request : String
  response : RecResult
  createdAtMinutes : ℚ
  deriving DecidableEq, Repr

/-- `db.py` `get_cached_recommendations` (lines 182-195): the row with
matching key whose `created_at + max_age_minutes` is strictly later than
now; `None` when expired or missing. -/
def get_cached_recommendations (table : List CacheRow)
    (profile_hash user_request : String) (nowMinutes : ℚ)
    (max_age_minutes : ℚ := 60) : Option RecResult :=
  (table.find? (fun r =>
    r.profile_hash == profile_hash && r.user_request == user_request &&
      decide (nowMinutes < r.createdAtMinutes + max_age_minutes))).map
    (fun r => r.response)

/-- `recommender.py` `_cache_key` (lines 126-129): the SHA-256 fingerprint
over `profile|favorites|history|user_request`.  The hash itself is
modelled by the hashed content string (an injective stand-in for the
digest of that same string). -/
def cacheKey (profile favorites history user_request : String) : String :=
  profile ++ "|" ++ favorites ++ "|" ++ history ++ "|" ++ user_request

/-- `recommender.py` `recommend` (lines 131-282), modelled up to the data
the claims need.  External effects are oracle arguments: the parsed
cache table and clock, the parsed query list from the first model call,
the four gathered source results, and the parsed ranking array from the
second model call.  The returned `Nat` counts language-model calls made
by the invocation.  On a cache hit (lines 138-142) the stored result is
returned with `cached := true` and no model call is made.  Otherwise the
query-generation call happens (1 call), candidates are aggregated, an
empty candidate set short-circuits (lines 184-185), else the ranking
call happens (2 calls total) and the SCORE-phase selection is built
(line 270 then sorts it by composite score, a permutation). -/
def recommend (profile favorites history user_request : String)
    (cacheTable : List CacheRow) (nowMinutes : ℚ)
    (queries : List String)
    (s1 s2 s3 s4 : Option (List Episode))
    (rankings : List RankEntry) : RecResult × Nat :=
  let profile_hash := cacheKey profile favorites history user_request
  match get_cached_recommendations cacheTable profile_hash user_request nowMinutes with
  | some stored =>
    -- `result = json.loads(cached); result["cached"] = True; return result`
    ({ stored with cached := true }, 0)
  | none =>
    let all_episodes := aggregate s1 s2 s3 s4
    if all_episodes.isEmpty then
      ({ episodes := [], queries_used := queries, cached := false }, 1)
    else
      ({ episodes := rankedEpisodes all_episodes rankings
         queries_used := queries
         cached := false }, 2)

/-- Basic bounds of the clamp. -/
theorem clamp01_mem (x : ℝ) : 0 ≤ clamp01 x ∧ clamp01 x ≤ 1 := by
  constructor
  · exact le_max_left 0 _
  · exact max_le (by norm_num) (min_le_left 1 x)

/-- The clamp is the identity on `[0,1]`. -/
theorem clamp01_eq {x : ℝ} (h0 : 0 ≤ x) (h1 : x ≤ 1) : clamp01 x = x := by
  unfold clamp01
  rw [min_eq_right h1, max_eq_right h0]

/-- On a nonpositive exponent the clamp is the identity. -/
theorem clamp01_exp {y : ℝ} (hy : y ≤ 0) : clamp01 (Real.exp y) = Real.exp y :=
  clamp01_eq (Real.exp_pos y).le
    (by simpa using Real.exp_le_exp.mpr hy)

/-- Lower exponential bound `1 - x ≤ exp (-x)`. -/
theorem one_sub_le_exp_neg (x : ℝ) : 1 - x ≤ Real.exp (-x) := by
  have h := Real.add_one_le_exp (-x)
  linarith

/-- Upper exponential bound `exp (-x) ≤ (1 + x)⁻¹` for nonnegative `x`. -/
theorem exp_neg_le_inv_one_add {x : ℝ} (hx : 0 ≤ x) : Real.exp (-x) ≤ (1 + x)⁻¹ := by
  have h := Real.add_one_le_exp x
  have hpos : (0 : ℝ) < 1 + x := by linarith
  rw [Real.exp_neg]
  exact inv_anti₀ hpos (by linarith)

/-! ### C10 — weight validation -/

/-- C10: `RecommendationWeights.validate` raises a configuration error at
load time if and only if the six configured weights do not sum to 1.0
within the 1e-3 tolerance, and the default weights of `config.py` pass
validation (their total is exactly 1). -/
theorem validate_weights_spec :
    (∀ w : RecommendationWeights,
      validate w = .error "Weights must sum to 1.0" ↔ 1/1000 ≤ |weightsTotal w - 1|) ∧
    validate defaultWeights = .ok true ∧ weightsTotal defaultWeights = 1 := by
  refine ⟨fun w => ?_, by norm_num [validate, weightsTotal, defaultWeights],
    by norm_num [weightsTotal, defaultWeights]⟩
  by_cases hc : |weightsTotal w - 1| ≥ 1/1000
  · simp [validate, hc]
  · simp [validate, hc]

/-! ### C7 — trending score -/

/-- C7: the trending score is exactly 0 when the feed is absent from the
snapshot or its rank entry is missing; when a rank is found the score is
`clamp01 (exp (-0.025 * rank))`; the rank curve is strictly decreasing
on nonnegative ranks; and the score of rank 1 is at least 0.95. -/
theorem calculate_trending_score_spec :
    (∀ fid data, alookup data fid = none → calculate_trending_score fid data = 0) ∧
    (∀ fid data, alookup data fid = some none → calculate_trending_score fid data = 0) ∧
    (∀ fid data r, alookup data fid = some (some r) →
      calculate_trending_score fid data = trendRankScore r) ∧
    (∀ r1 r2 : Int, 0 ≤ r1 → r1 < r2 → trendRankScore r2 < trendRankScore r1) ∧
    (0.95 : ℝ) ≤ trendRankScore 1 := by
  have hval : ∀ r : Int, 0 ≤ r →
      trendRankScore r = Real.exp (-(1/40) * (r : ℝ)) := by
    intro r hr
    unfold trendRankScore
    apply clamp01_exp
    have : (0 : ℝ) ≤ (r : ℝ) := by exact_mod_cast hr
    nlinarith
  refine ⟨?_, ?_, ?_, ?_, ?_⟩
  · intro fid data h
    unfold calculate_trending_score
    split
    · rfl
    · rw [h]
  · intro fid data h
    unfold calculate_trending_score
    split
    · rfl
    · rw [h]
  · intro fid data r h
    unfold calculate_trending_score
    split
    · rename_i hemp
      rw [List.isEmpty_iff] at hemp
      subst hemp
      simp [alookup] at h
    · rw [h]
      rfl
  · intro r1 r2 h1 h12
    rw [hval r1 h1, hval r2 (le_trans h1 h12.le)]
    apply Real.exp_lt_exp.mpr
    have : (r1 : ℝ) < (r2 : ℝ) := by exact_mod_cast h12
    nlinarith
  · rw [hval 1 (by norm_num)]
    have h := one_sub_le_exp_neg (1/40 : ℝ)
    have : -(1/40 : ℝ) * ((1 : Int) : ℝ) = -(1/40 : ℝ) := by norm_num
    rw [this]
    linarith

/-- Concrete instantiation of `calculate_trending_score_spec`: rank 2 at
feed 5 scores the rank curve value, and rank 0 beats rank 3. -/
theorem calculate_trending_score_spec_witness :
    calculate_trending_score 5 [(5, some 2)] = trendRankScore 2 ∧
    trendRankScore 3 < trendRankScore 0 :=
  ⟨calculate_trending_score_spec.2.2.1 5 [(5, some 2)] 2 rfl,
   calculate_trending_score_spec.2.2.2.1 0 3 (by norm_num) (by norm_num)⟩

/-! ### C6 — duration match -/

/-- The duration score at a concrete duration reduces to the Gaussian at
the rational minute difference. -/
theorem duration_match_some (d : Int) (pref : ℚ) :
    calculate_duration_match (some d) pref =
      clamp01 (Real.exp (-((((|(d : ℚ) / 60 - pref|) : ℚ) : ℝ) ^ 2) / (2 * 27 ^ 2))) := rfl

/-- The Gaussian exponent is nonpositive, so the clamp is the identity on
every duration score. -/
theorem duration_match_exp (x : ℚ) :
    clamp01 (Real.exp (-(((x : ℚ) : ℝ) ^ 2) / (2 * 27 ^ 2))) =
      Real.exp (-(((x : ℚ) : ℝ) ^ 2) / (2 * 27 ^ 2)) := by
  apply clamp01_exp
  have hx : (0 : ℝ) ≤ ((x : ℚ) : ℝ) ^ 2 := sq_nonneg _
  have : (0 : ℝ) < 2 * 27 ^ 2 := by norm_num
  apply div_nonpos_of_nonpos_of_nonneg <;> linarith

/-- Evaluate the duration score at a concrete duration against the
default preferred 30 minutes, given the minute difference. -/
theorem duration_match_eval (d : Int) (x : ℚ)
    (hx : (|(d : ℚ) / 60 - 30| : ℚ) = x) :
    calculate_duration_match (some d) 30 =
      Real.exp (-(((x : ℚ) : ℝ) ^ 2) / (2 * 27 ^ 2)) := by
  rw [duration_match_some, hx, duration_match_exp]

/-- C6 counterexample: at a 10-minute difference (40-minute episode,
preferred 30) the duration score exceeds 0.93, so it is not within 0.05
of the 0.84 the claim asserts. -/
theorem duration_match_ten_min_not_084 :
    ¬ |calculate_duration_match (some 2400) 30 - 0.84| ≤ 0.05 := by
  intro habs
  have h1 : calculate_duration_match (some 2400) 30 =
      Real.exp (-(100 / 1458)) := by
    rw [duration_match_eval 2400 10 (by norm_num)]
    norm_num
  have h2 : (1 : ℝ) - 100 / 1458 ≤ Real.exp (-(100 / 1458)) :=
    one_sub_le_exp_neg _
  rw [h1] at habs
  rw [abs_le] at habs
  have := habs.2
  linarith

/-- C6 amended: the duration match score is 0 when duration is missing and
otherwise equals the clamped Gaussian `exp(-(diff_minutes)^2 / (2*27^2))`
around the preferred duration; with the default preferred duration of 30
minutes the score is exactly 1 at difference 0, lies in `[0.93, 0.94]`
(about 0.93, not 0.84) at difference 10, in `[0.5, 0.8]` at difference
20, in `[0.5, 0.6]` (about 0.54, not 0.43) at difference 30, and is
below 0.5 at difference 60. -/
theorem calculate_duration_match_spec :
    (∀ pref : ℚ, calculate_duration_match none pref = 0) ∧
    (∀ (d : Int) (pref : ℚ), calculate_duration_match (some d) pref =
      clamp01 (Real.exp (-((((|(d : ℚ) / 60 - pref|) : ℚ) : ℝ) ^ 2) / (2 * 27 ^ 2)))) ∧
    calculate_duration_match (some 1800) 30 = 1 ∧
    ((0.93 : ℝ) ≤ calculate_duration_match (some 2400) 30 ∧
      calculate_duration_match (some 2400) 30 ≤ 0.94) ∧
    ((0.5 : ℝ) ≤ calculate_duration_match (some 3000) 30 ∧
      calculate_duration_match (some 3000) 30 ≤ 0.8) ∧
    ((0.5 : ℝ) ≤ calculate_duration_match (some 3600) 30 ∧
      calculate_duration_match (some 3600) 30 ≤ 0.6) ∧
    calculate_duration_match (some 5400) 30 < 0.5 := by
  have hred := duration_match_eval
  refine ⟨fun _ => rfl, fun d pref => rfl, ?_, ⟨?_, ?_⟩, ⟨?_, ?_⟩, ⟨?_, ?_⟩, ?_⟩
  · rw [hred 1800 0 (by norm_num)]
    norm_num
  · rw [hred 2400 10 (by norm_num)]
    have h := one_sub_le_exp_neg ((100 : ℝ) / 1458)
    have he : -(((10 : ℚ) : ℝ) ^ 2) / (2 * 27 ^ 2) = -(100 / 1458) := by norm_num
    rw [he]
    linarith
  · rw [hred 2400 10 (by norm_num)]
    have h := exp_neg_le_inv_one_add (by norm_num : (0:ℝ) ≤ 100 / 1458)
    have he : -(((10 : ℚ) : ℝ) ^ 2) / (2 * 27 ^ 2) = -(100 / 1458) := by norm_num
    rw [he]
    calc Real.exp (-(100 / 1458)) ≤ (1 + 100 / 1458)⁻¹ := h
      _ ≤ 0.94 := by norm_num
  · rw [hred 3000 20 (by norm_num)]
    have h := one_sub_le_exp_neg ((400 : ℝ) / 1458)
    have he : -(((20 : ℚ) : ℝ) ^ 2) / (2 * 27 ^ 2) = -(400 / 1458) := by norm_num
    rw [he]
    linarith
  · rw [hred 3000 20 (by norm_num)]
    have h := exp_neg_le_inv_one_add (by norm_num : (0:ℝ) ≤ 400 / 1458)
    have he : -(((20 : ℚ) : ℝ) ^ 2) / (2 * 27 ^ 2) = -(400 / 1458) := by norm_num
    rw [he]
    calc Real.exp (-(400 / 1458)) ≤ (1 + 400 / 1458)⁻¹ := h
      _ ≤ 0.8 := by norm_num
  · rw [hred 3600 30 (by norm_num)]
    have he : -(((30 : ℚ) : ℝ) ^ 2) / (2 * 27 ^ 2) =
        -(50 / 243) + -(50 / 243) + -(50 / 243) := by norm_num
    rw [he, Real.exp_add, Real.exp_add]
    have hy : (193 / 243 : ℝ) ≤ Real.exp (-(50 / 243)) := by
      have h := one_sub_le_exp_neg ((50 : ℝ) / 243)
      linarith
    have hy3 : (193 / 243 : ℝ) ^ 3 ≤ Real.exp (-(50 / 243)) ^ 3 :=
      pow_le_pow_left₀ (by norm_num) hy 3
    have hcube : Real.exp (-(50 / 243)) ^ 3 =
        Real.exp (-(50 / 243)) * Real.exp (-(50 / 243)) * Real.exp (-(50 / 243)) := by
      ring
    rw [hcube] at hy3
    have : (0.5 : ℝ) ≤ (193 / 243 : ℝ) ^ 3 := by norm_num
    linarith
  · rw [hred 3600 30 (by norm_num)]
    have he : -(((30 : ℚ) : ℝ) ^ 2) / (2 * 27 ^ 2) =
        -(25 / 81) + -(25 / 81) := by norm_num
    rw [he, Real.exp_add]
    have hz : Real.exp (-(25 / 81)) ≤ (1 + 25 / 81 : ℝ)⁻¹ :=
      exp_neg_le_inv_one_add (by norm_num)
    have hsq : Real.exp (-(25 / 81)) * Real.exp (-(25 / 81)) ≤
        (1 + 25 / 81 : ℝ)⁻¹ * (1 + 25 / 81 : ℝ)⁻¹ :=
      mul_le_mul hz hz (Real.exp_pos _).le (by positivity)
    have : ((1 + 25 / 81 : ℝ)⁻¹ * (1 + 25 / 81 : ℝ)⁻¹) ≤ 0.6 := by norm_num
    linarith
  · rw [hred 5400 60 (by norm_num)]
    have h := exp_neg_le_inv_one_add (by norm_num : (0:ℝ) ≤ 3600 / 1458)
    have he : -(((60 : ℚ) : ℝ) ^ 2) / (2 * 27 ^ 2) = -(3600 / 1458) := by norm_num
    rw [he]
    calc Real.exp (-(3600 / 1458)) ≤ (1 + 3600 / 1458)⁻¹ := h
      _ < 0.5 := by norm_num

/-! ### C9 — all scores lie in the unit interval -/

/-- The trending score is clamped or zero, hence in `[0,1]`. -/
theorem trending_score_mem (fid : Int) (data : List (Int × Option Int)) :
    0 ≤ calculate_trending_score fid data ∧ calculate_trending_score fid data ≤ 1 := by
  unfold calculate_trending_score
  split
  · norm_num
  · cases h : alookup data fid with
    | none => norm_num
    | some r =>
      cases r with
      | none => norm_num
      | some rank => exact clamp01_mem _

/-- The social score is in `[0,1]` whenever every stored mention count is
nonnegative (mention counts are counts: every write path of
`db.update_reddit_mention` increments by a positive extraction count). -/
theorem social_score_mem (name : String) (mentions : List (String × Int))
    (h : ∀ p ∈ mentions, (0 : Int) ≤ p.2) :
    0 ≤ calculate_social_score name mentions ∧ calculate_social_score name mentions ≤ 1 := by
  unfold calculate_social_score
  cases hl : alookup mentions name with
  | none => norm_num
  | some m =>
    have hm : (0 : Int) ≤ m := by
      unfold alookup at hl
      cases hf : mentions.find? (fun p => p.1 == name) with
      | none => rw [hf] at hl; simp at hl
      | some p =>
        rw [hf] at hl
        simp at hl
        have := h p (List.mem_of_find?_eq_some hf)
        omega
    dsimp only
    by_cases h0 : m = 0
    · simp [h0]
    · rw [if_neg h0]
      by_cases h10 : m ≥ 10
      · rw [if_pos h10]; norm_num
      · rw [if_neg h10]
        by_cases h5 : m ≥ 5
        · rw [if_pos h5]
          have hc5 : (5 : ℚ) ≤ (m : ℚ) := by exact_mod_cast h5
          have hc9 : (m : ℚ) ≤ 9 := by
            have : m ≤ 9 := by omega
            exact_mod_cast this
          constructor <;> nlinarith
        · rw [if_neg h5]
          have hc1 : (1 : ℚ) ≤ (m : ℚ) := by
            have : 1 ≤ m := by omega
            exact_mod_cast this
          have hc4 : (m : ℚ) ≤ 4 := by
            have : m ≤ 4 := by omega
            exact_mod_cast this
          constructor <;> nlinarith

/-- C9: each of the five component scores lies in `[0,1]` (the social
score under the data-model invariant that mention counts are
nonnegative), and the composite score lies in `[0,1]` for arbitrary real
inputs and arbitrary weights, in particular for component inputs in
`[0,1]` with weights summing to 1. -/
theorem scores_in_unit_interval :
    (∀ fid data, 0 ≤ calculate_trending_score fid data ∧
      calculate_trending_score fid data ≤ 1) ∧
    (∀ name mentions, (∀ p ∈ mentions, (0 : Int) ≤ p.2) →
      0 ≤ calculate_social_score name mentions ∧
        calculate_social_score name mentions ≤ 1) ∧
    (∀ ep, 0 ≤ calculate_popularity_score ep ∧ calculate_popularity_score ep ≤ 1) ∧
    (∀ pub now, 0 ≤ calculate_recency_score pub now ∧
      calculate_recency_score pub now ≤ 1) ∧
    (∀ dur pref, 0 ≤ calculate_duration_match dur pref ∧
      calculate_duration_match dur pref ≤ 1) ∧
    (∀ t s p r d a w, 0 ≤ calculate_composite_score t s p r d a w ∧
      calculate_composite_score t s p r d a w ≤ 1) := by
  refine ⟨trending_score_mem, social_score_mem, ?_, ?_, ?_, ?_⟩
  · intro ep
    unfold calculate_popularity_score
    norm_num
  · intro pub now
    unfold calculate_recency_score
    cases pub with
    | none => norm_num
    | some t => exact clamp01_mem _
  · intro dur pref
    unfold calculate_duration_match
    cases dur with
    | none => norm_num
    | some d => exact clamp01_mem _
  · intro t s p r d a w
    exact clamp01_mem _

/-- Concrete instantiation of `scores_in_unit_interval`: the social score
of a stored count of 3 is in `[0,1]`. -/
theorem scores_in_unit_interval_witness :
    0 ≤ calculate_social_score "test podcast" [("test podcast", 3)] ∧
      calculate_social_score "test podcast" [("test podcast", 3)] ≤ 1 :=
  scores_in_unit_interval.2.1 "test podcast" [("test podcast", 3)] (by decide)

/-! ### C3 — aggregation deduplicates by episode id, first occurrence wins -/

/-- Everything the dedup loop keeps comes from its input list. -/
theorem dedupById_mem : ∀ (l : List Episode) (seen : List Int),
    ∀ e ∈ dedupById l seen, e ∈ l := by
  intro l
  induction l with
  | nil => intro seen e he; simp [dedupById] at he
  | cons x rest ih =>
    intro seen e he
    unfold dedupById at he
    by_cases hx : x.id ∈ seen
    · rw [if_pos hx] at he
      exact List.mem_cons_of_mem x (ih seen e he)
    · rw [if_neg hx] at he
      rcases List.mem_cons.mp he with h | h
      · exact h ▸ List.mem_cons_self x rest
      · exact List.mem_cons_of_mem x (ih _ e h)

/-- Ids already seen never reappear in the dedup output. -/
theorem dedupById_not_seen : ∀ (l : List Episode) (seen : List Int) (i : Int),
    i ∈ seen → i ∉ (dedupById l seen).map (fun e => e.id) := by
  intro l
  induction l with
  | nil => intro seen i _ hmem; simp [dedupById] at hmem
  | cons x rest ih =>
    intro seen i hi hmem
    unfold dedupById at hmem
    by_cases hx : x.id ∈ seen
    · rw [if_pos hx] at hmem
      exact ih seen i hi hmem
    · rw [if_neg hx] at hmem
      simp only [List.map_cons, List.mem_cons] at hmem
      rcases hmem with h | h
      · exact hx (h ▸ hi)
      · exact ih (x.id :: seen) i (List.mem_cons_of_mem _ hi) h

/-- The ids of the dedup output contain no duplicate. -/
theorem dedupById_nodup : ∀ (l : List Episode) (seen : List Int),
    ((dedupById l seen).map (fun e => e.id)).Nodup := by
  intro l
  induction l with
  | nil => intro seen; simp [dedupById]
  | cons x rest ih =>
    intro seen
    unfold dedupById
    by_cases hx : x.id ∈ seen
    · rw [if_pos hx]; exact ih seen
    · rw [if_neg hx]
      simp only [List.map_cons, List.nodup_cons]
      exact ⟨dedupById_not_seen rest (x.id :: seen) x.id (List.mem_cons_self _ _), ih _⟩

/-- Each kept episode is the first episode of its id in the input list. -/
theorem dedupById_first : ∀ (l : List Episode) (seen : List Int),
    ∀ e ∈ dedupById l seen, l.find? (fun x => x.id == e.id) = some e := by
  intro l
  induction l with
  | nil => intro seen e he; simp [dedupById] at he
  | cons x rest ih =>
    intro seen e he
    have hnotseen : e.id ∉ seen := by
      intro hs
      exact dedupById_not_seen (x :: rest) seen e.id hs
        (List.mem_map_of_mem (fun e => e.id) he)
    unfold dedupById at he
    by_cases hx : x.id ∈ seen
    · rw [if_pos hx] at he
      have hne : (x.id == e.id) = false := by
        simp only [beq_eq_false_iff_ne, ne_eq]
        intro heq
        exact hnotseen (heq ▸ hx)
      rw [List.find?_cons, hne]
      exact ih seen e he
    · rw [if_neg hx] at he
      rcases List.mem_cons.mp he with h | h
      · subst h
        rw [List.find?_cons]
        simp
      · have hnotseen2 : e.id ∉ x.id :: seen := by
          intro hs
          exact dedupById_not_seen rest (x.id :: seen) e.id hs
            (List.mem_map_of_mem (fun e => e.id) h)
        have hne : (x.id == e.id) = false := by
          simp only [beq_eq_false_iff_ne, ne_eq]
          intro heq
          exact hnotseen2 (heq ▸ List.mem_cons_self x.id seen)
        rw [List.find?_cons, hne]
        exact ih (x.id :: seen) e h

/-- Every input id survives into the output (or was already seen). -/
theorem dedupById_covers : ∀ (l : List Episode) (seen : List Int),
    ∀ e ∈ l, e.id ∈ seen ∨ ∃ e2 ∈ dedupById l seen, e2.id = e.id := by
  intro l
  induction l with
  | nil => intro seen e he; simp at he
  | cons x rest ih =>
    intro seen e he
    unfold dedupById
    by_cases hx : x.id ∈ seen
    · rw [if_pos hx]
      rcases List.mem_cons.mp he with h | h
      · exact Or.inl (h ▸ hx)
      · exact ih seen e h
    · rw [if_neg hx]
      rcases List.mem_cons.mp he with h | h
      · exact Or.inr ⟨x, List.mem_cons_self _ _, by rw [h]⟩
      · rcases ih (x.id :: seen) e h with hseen | ⟨e2, he2, heq⟩
        · rcases List.mem_cons.mp hseen with h1 | h1
          · exact Or.inr ⟨x, List.mem_cons_self _ _, h1.symm⟩
          · exact Or.inl h1
        · exact Or.inr ⟨e2, List.mem_cons_of_mem x he2, heq⟩

/-- C3: for every combination of (possibly overlapping, possibly failed)
source results, the merged candidate list contains each episode id at
most once; every kept episode is the first occurrence of its id in the
concatenation of the sources in the fixed gather order (AI-query
results, trending episodes, trending-feed episodes, mention-based
results); and every id occurring in any successful source is
represented. -/
theorem aggregate_nodup_first_wins (s1 s2 s3 s4 : Option (List Episode)) :
    ((aggregate s1 s2 s3 s4).map (fun e => e.id)).Nodup ∧
    (∀ e ∈ aggregate s1 s2 s3 s4,
      (s1.getD [] ++ s2.getD [] ++ s3.getD [] ++ s4.getD []).find?
        (fun x => x.id == e.id) = some e) ∧
    (∀ e ∈ s1.getD [] ++ s2.getD [] ++ s3.getD [] ++ s4.getD [],
      ∃ e2 ∈ aggregate s1 s2 s3 s4, e2.id = e.id) := by
  refine ⟨dedupById_nodup _ [], fun e he => dedupById_first _ [] e he, fun e he => ?_⟩
  rcases dedupById_covers _ [] e he with h | h
  · simp at h
  · exact h

/-- Concrete instantiation of `aggregate_nodup_first_wins`: with source 1
and source 3 overlapping on id 1 (and source 2 failed), the merge keeps
the source-1 episode for id 1. -/
theorem aggregate_nodup_first_wins_witness :
    ((some [({ id := 1, feed_title := "a" } : Episode)]).getD [] ++
        (none : Option (List Episode)).getD [] ++
        (some [({ id := 1, feed_title := "b" } : Episode),
          ({ id := 2, feed_title := "c" } : Episode)]).getD [] ++
        (none : Option (List Episode)).getD []).find?
      (fun x => x.id == ({ id := 1, feed_title := "a" } : Episode).id) =
      some { id := 1, feed_title := "a" } :=
  (aggregate_nodup_first_wins (some [{ id := 1, feed_title := "a" }]) none
    (some [{ id := 1, feed_title := "b" }, { id := 2, feed_title := "c" }]) none).2.1
    { id := 1, feed_title := "a" } (by decide)

/-! ### C1 — feed diversity in the SCORE phase -/

/-- A head episode that is not a kept candidate of feed `f` does not
change the first kept candidate of feed `f`. -/
theorem firstRankedOfFeed_cons_skip (ep : Episode) (rest : List Episode)
    (rankings : List RankEntry) (f : Int)
    (h : (ep.feed_id == some f && (rankingDict rankings ep.id).isSome) = false) :
    firstRankedOfFeed (ep :: rest) rankings f = firstRankedOfFeed rest rankings f := by
  unfold firstRankedOfFeed
  rw [List.find?_cons_of_neg _ (by simp [h])]

/-- Characterization of the SCORE-phase loop for a fixed nonzero feed id
`f`: if `f` is already in the seen set the loop keeps no episode of feed
`f`; otherwise it keeps exactly the first candidate of feed `f` in input
order that the ranking model mentioned. -/
theorem scoreLoop_filter (rankings : List RankEntry) (f : Int) (hf : f ≠ 0) :
    ∀ (l : List Episode) (seen : List Int),
    ((scoreLoop rankings l seen).map Prod.fst).filter (fun e => e.feed_id == some f) =
      if f ∈ seen then [] else (firstRankedOfFeed l rankings f).toList := by
  intro l
  induction l with
  | nil =>
    intro seen
    simp [scoreLoop, firstRankedOfFeed]
  | cons ep rest ih =>
    intro seen
    rw [scoreLoop]
    by_cases hskip : feedTruthy ep.feed_id = true ∧ ep.feed_id.getD 0 ∈ seen
    · rw [if_pos hskip, ih seen]
      by_cases hfs : f ∈ seen
      · simp [hfs]
      · rw [if_neg hfs, if_neg hfs]
        have hbeq : (ep.feed_id == some f) = false := by
          simp only [beq_eq_false_iff_ne, ne_eq]
          intro heq
          apply hfs
          have : ep.feed_id.getD 0 = f := by rw [heq]; rfl
          exact this ▸ hskip.2
        rw [firstRankedOfFeed_cons_skip ep rest rankings f (by rw [hbeq]; rfl)]
    · rw [if_neg hskip]
      cases hrk : rankingDict rankings ep.id with
      | none =>
        rw [ih seen]
        by_cases hfs : f ∈ seen
        · simp [hfs]
        · rw [if_neg hfs, if_neg hfs]
          rw [firstRankedOfFeed_cons_skip ep rest rankings f (by rw [hrk]; simp)]
      | some r =>
        by_cases hfeed : ep.feed_id = some f
        · have hbeq : (ep.feed_id == some f) = true := by simp [hfeed]
          have htruthy : feedTruthy ep.feed_id = true := by
            simp [hfeed, feedTruthy, hf]
          have hgetd : ep.feed_id.getD 0 = f := by rw [hfeed]; rfl
          have hfs : f ∉ seen := fun hmem => hskip ⟨htruthy, hgetd ▸ hmem⟩
          rw [if_neg hfs]
          simp only [List.map_cons]
          rw [List.filter_cons_of_pos (by simpa using hbeq)]
          rw [htruthy]
          simp only [hgetd, if_true]
          rw [ih (f :: seen), if_pos (List.mem_cons_self f seen)]
          unfold firstRankedOfFeed
          rw [List.find?_cons_of_pos _ (by rw [hrk]; simp [hbeq])]
          rfl
        · have hbeq : (ep.feed_id == some f) = false := by
            simp [hfeed]
          simp only [List.map_cons]
          rw [List.filter_cons_of_neg (by simp [hbeq])]
          have hseen2 : ∀ s2 : List Int,
              s2 = (if feedTruthy ep.feed_id = true then ep.feed_id.getD 0 :: seen
                else seen) → (f ∈ s2 ↔ f ∈ seen) := by
            intro s2 hs2
            subst hs2
            by_cases ht : feedTruthy ep.feed_id = true
            · rw [if_pos ht]
              constructor
              · intro hmem
                rcases List.mem_cons.mp hmem with h1 | h1
                · exfalso
                  cases hfid : ep.feed_id with
                  | none => rw [hfid] at ht; exact Bool.noConfusion ht
                  | some g =>
                    apply hfeed
                    rw [hfid]
                    rw [hfid] at h1
                    simp at h1
                    rw [h1]
                · exact h1
              · exact fun hmem => List.mem_cons_of_mem _ hmem
            · rw [if_neg ht]
          rw [ih _]
          rw [firstRankedOfFeed_cons_skip ep rest rankings f (by rw [hbeq]; rfl)]
          by_cases hfs : f ∈ seen
          · rw [if_pos ((hseen2 _ rfl).mpr hfs), if_pos hfs]
          · rw [if_neg (fun hmem => hfs ((hseen2 _ rfl).mp hmem)), if_neg hfs]

/-- C1 amended: in the SCORE phase, and in every permutation of its
selection (in particular the final list sorted by composite score), at
most one episode per owning feed (nonzero feed id) survives, and the
survivor for a feed is the first candidate of that feed in the merged
candidate list order that the ranking model mentioned — the merged-list
order, not the AI ranking order. -/
theorem rankedEpisodes_feed_unique (all_episodes : List Episode)
    (rankings : List RankEntry) (final : List (Episode × RankEntry))
    (hperm : final.Perm (rankedEpisodes all_episodes rankings))
    (f : Int) (hf : f ≠ 0) :
    ((final.map Prod.fst).filter (fun e => e.feed_id == some f)).length ≤ 1 ∧
    ∀ pr ∈ final, pr.1.feed_id = some f →
      firstRankedOfFeed all_episodes rankings f = some pr.1 := by
  have hchar := scoreLoop_filter rankings f hf all_episodes []
  rw [if_neg (by simp)] at hchar
  have hperm2 : ((final.map Prod.fst).filter (fun e => e.feed_id == some f)).Perm
      (((rankedEpisodes all_episodes rankings).map Prod.fst).filter
        (fun e => e.feed_id == some f)) :=
    (hperm.map Prod.fst).filter _
  have hchar2 : (((rankedEpisodes all_episodes rankings).map Prod.fst).filter
      (fun e => e.feed_id == some f)) = (firstRankedOfFeed all_episodes rankings f).toList :=
    hchar
  constructor
  · rw [hperm2.length_eq, hchar2]
    cases firstRankedOfFeed all_episodes rankings f <;> simp
  · intro pr hpr hfeed
    have hmem : pr.1 ∈ (final.map Prod.fst).filter (fun e => e.feed_id == some f) :=
      List.mem_filter.mpr ⟨List.mem_map_of_mem Prod.fst hpr, by simp [hfeed]⟩
    have hmem2 : pr.1 ∈ (firstRankedOfFeed all_episodes rankings f).toList := by
      rw [← hchar2]
      exact hperm2.mem_iff.mp hmem
    cases hfr : firstRankedOfFeed all_episodes rankings f with
    | none => rw [hfr] at hmem2; simp at hmem2
    | some e =>
      rw [hfr] at hmem2
      simp at hmem2
      rw [hmem2]

/-- Concrete instantiation of `rankedEpisodes_feed_unique` on two
candidates of feed 7. -/
theorem rankedEpisodes_feed_unique_witness :
    (((rankedEpisodes
        [{ id := 1, feed_title := "A", feed_id := some 7 },
         { id := 2, feed_title := "B", feed_id := some 7 }]
        [{ id := 2, score := 10, reason := "x" },
         { id := 1, score := 5, reason := "y" }]).map Prod.fst).filter
      (fun e => e.feed_id == some 7)).length ≤ 1 ∧
    ∀ pr ∈ rankedEpisodes
        [{ id := 1, feed_title := "A", feed_id := some 7 },
         { id := 2, feed_title := "B", feed_id := some 7 }]
        [{ id := 2, score := 10, reason := "x" },
         { id := 1, score := 5, reason := "y" }],
      pr.1.feed_id = some 7 →
      firstRankedOfFeed
        [{ id := 1, feed_title := "A", feed_id := some 7 },
         { id := 2, feed_title := "B", feed_id := some 7 }]
        [{ id := 2, score := 10, reason := "x" },
         { id := 1, score := 5, reason := "y" }] 7 = some pr.1 :=
  rankedEpisodes_feed_unique _ _ _ (List.Perm.refl _) 7 (by decide)

/-- C1 counterexample: two candidates of feed 7 where the AI ranking
array lists episode 2 first (its top pick, score 10) but the merged
candidate list has episode 1 first (score 5): the SCORE phase keeps
episode 1, not the first episode in AI ranking order. -/
theorem rankedEpisodes_not_ai_order :
    ((rankedEpisodes
        [{ id := 1, feed_title := "A", feed_id := some 7 },
         { id := 2, feed_title := "B", feed_id := some 7 }]
        [{ id := 2, score := 10, reason := "x" },
         { id := 1, score := 5, reason := "y" }]).map (fun pr => pr.1.id)) = [1] ∧
    firstInRankingOrderOfFeed
        [{ id := 1, feed_title := "A", feed_id := some 7 },
         { id := 2, feed_title := "B", feed_id := some 7 }]
        [{ id := 2, score := 10, reason := "x" },
         { id := 1, score := 5, reason := "y" }] 7 = some 2 := by
  refine ⟨?_, ?_⟩ <;> decide

/-! ### C4 — mention-based source selection -/

/-- C4 counterexample: with stored mentions a:1, b:5, c:2, d:10 (in
store order), the source selects the first three names a, b, c; the top
3 by mention count are d, b, c, so the most-mentioned podcast d is not
selected. -/
theorem redditMentionSelection_not_top3 :
    redditMentionSelection [("a", 1), ("b", 5), ("c", 2), ("d", 10)] = ["a", "b", "c"] ∧
    top3ByCount [("a", 1), ("b", 5), ("c", 2), ("d", 10)] = ["d", "b", "c"] ∧
    "d" ∉ redditMentionSelection [("a", 1), ("b", 5), ("c", 2), ("d", 10)] := by
  refine ⟨?_, ?_, ?_⟩ <;> decide

/-- C4 amended: the mention-based retrieval source selects the first 3
podcasts in mention-store iteration order among mentions not older than
24 hours (no sorting by count), and issues a search of up to 2 episodes
for each selected name; every selected name comes from a fresh mention
row. -/
theorem redditMentionSelection_spec :
    (∀ rows (now : ℚ),
      redditMentionSelection (get_reddit_mentions rows now 24) =
        ((rows.filter (fun r => now - 24 * 3600 < r.updatedAt)).map
          (fun r => r.podcast_name)).take 3) ∧
    (∀ mentions, (redditSearchRequests mentions).length ≤ 3) ∧
    (∀ mentions p, p ∈ redditSearchRequests mentions → p.2 = 2) ∧
    (∀ rows (now : ℚ) p, p ∈ redditSearchRequests (get_reddit_mentions rows now 24) →
      ∃ r ∈ rows, r.podcast_name = p.1 ∧ now - 24 * 3600 < r.updatedAt) := by
  have hsel : ∀ rows (now : ℚ),
      redditMentionSelection (get_reddit_mentions rows now 24) =
        ((rows.filter (fun r => now - 24 * 3600 < r.updatedAt)).map
          (fun r => r.podcast_name)).take 3 := by
    intro rows now
    simp [redditMentionSelection, get_reddit_mentions, List.map_map]
    rfl
  refine ⟨hsel, ?_, ?_, ?_⟩
  · intro mentions
    simp only [redditSearchRequests, redditMentionSelection, List.length_map,
      List.length_take]
    omega
  · intro mentions p hp
    rcases List.mem_map.mp hp with ⟨n, _, rfl⟩
    rfl
  · intro rows now p hp
    rcases List.mem_map.mp hp with ⟨n, hn, rfl⟩
    rw [hsel rows now] at hn
    have hn2 := List.mem_of_mem_take hn
    rcases List.mem_map.mp hn2 with ⟨r, hr, rfl⟩
    have hr2 := List.mem_filter.mp hr
    exact ⟨r, hr2.1, rfl, by simpa using hr2.2⟩

/-- Concrete instantiation of `redditMentionSelection_spec`: the request
issued for a fresh mention row searches the stored name with max 2. -/
theorem redditMentionSelection_spec_witness :
    ∃ r ∈ [({ podcast_name := "a", mention_count := 3, updatedAt := 100 } : MentionRow)],
      r.podcast_name = ("a", 2).1 ∧ (0 : ℚ) - 24 * 3600 < r.updatedAt :=
  redditMentionSelection_spec.2.2.2
    [{ podcast_name := "a", mention_count := 3, updatedAt := 100 }] 0 ("a", 2)
    (by
      simp [redditSearchRequests, redditMentionSelection, get_reddit_mentions,
        List.filter]
      norm_num)

/-! ### C5 — social score lookup and its orchestrator call site -/

/-- C5 counterexample: the feed title "Tech Podcast" differs only in case
from the stored lowercased key, yet the orchestrator social score is 0
while the stored count scores 1. -/
theorem social_score_case_mismatch :
    recommendSocialScore { id := 1, feed_title := "Tech Podcast" }
      [("tech podcast", 15)] = 0 ∧
    calculate_social_score "tech podcast" [("tech podcast", 15)] = 1 := by
  refine ⟨?_, ?_⟩ <;> decide

/-- C5 amended: the social-score lookup is a case-sensitive exact-string
lookup, and the orchestrator passes the episode feed title verbatim
(`ep.feed_title or ""`, no lowercasing), so any feed title that fails
the exact lookup — including one differing only in letter case from the
stored lowercased key — scores 0. -/
theorem social_lookup_no_normalization :
    (∀ ep mentions, recommendSocialScore ep mentions =
      calculate_social_score ep.feed_title mentions) ∧
    (∀ name mentions, alookup mentions name = none →
      calculate_social_score name mentions = 0) := by
  refine ⟨fun ep mentions => rfl, fun name mentions h => ?_⟩
  unfold calculate_social_score
  rw [h]

/-- Concrete instantiation of `social_lookup_no_normalization`: the
cased title misses the lowercased key and scores 0. -/
theorem social_lookup_no_normalization_witness :
    calculate_social_score "Tech Podcast" [("tech podcast", 15)] = 0 :=
  social_lookup_no_normalization.2 "Tech Podcast" [("tech podcast", 15)] (by decide)

/-! ### C2 — trending data refresh error behaviour -/

/-- C2 counterexample: with an empty cache (hence stale) and a failing
podcasts fetch, `_get_trending_data` propagates the error instead of
returning the empty snapshot. -/
theorem getTrendingData_error_on_fetch_failure :
    getTrendingData none 0 (.error ()) (.ok []) = .error () ∧
    getTrendingData none 0 (.error ()) (.ok []) ≠
      .ok { podcasts := [], episodes := [] } := by
  refine ⟨rfl, ?_⟩
  intro h
  exact Except.noConfusion h

/-- C2 amended: `_get_trending_data` returns the stored snapshot when the
cache is fresh; on a stale cache it returns the freshly fetched snapshot
when both directory fetches succeed, and it propagates the raised error
to its caller when either fetch fails — the refresh path has no handler,
so a directory failure during refresh is not converted into the empty
snapshot. -/
theorem getTrendingData_cases :
    (∀ (c : TrendCacheRow) (now : ℚ) fp fe,
      is_trending_cache_stale (some c) now TRENDING_CACHE_TTL = false →
      getTrendingData (some c) now fp fe = .ok c.data) ∧
    (∀ row (now : ℚ) pods eps,
      is_trending_cache_stale row now TRENDING_CACHE_TTL = true →
      getTrendingData row now (.ok pods) (.ok eps) =
        .ok { podcasts := pods, episodes := enumerateRanks eps }) ∧
    (∀ row (now : ℚ) fe,
      is_trending_cache_stale row now TRENDING_CACHE_TTL = true →
      getTrendingData row now (.error ()) fe = .error ()) ∧
    (∀ row (now : ℚ) pods,
      is_trending_cache_stale row now TRENDING_CACHE_TTL = true →
      getTrendingData row now (.ok pods) (.error ()) = .error ()) := by
  refine ⟨?_, ?_, ?_, ?_⟩
  · intro c now fp fe h
    simp [getTrendingData, h]
  · intro row now pods eps h
    simp [getTrendingData, h]
  · intro row now fe h
    simp [getTrendingData, h]
  · intro row now pods h
    simp [getTrendingData, h]

/-- Concrete instantiation of `getTrendingData_cases`: a fresh cache row
is returned unchanged even when both fetch oracles would fail, and a
stale empty cache with a failing fetch yields the error. -/
theorem getTrendingData_cases_witness :
    getTrendingData (some (⟨⟨[(1, some 0)], []⟩, 0⟩ : TrendCacheRow)) 100
        (.error ()) (.error ()) =
      .ok { podcasts := [(1, some 0)], episodes := [] } ∧
    getTrendingData none 0 (.error ()) (.ok [(⟨9, "", none, none⟩ : Episode)]) =
      .error () :=
  ⟨getTrendingData_cases.1 ⟨⟨[(1, some 0)], []⟩, 0⟩ 100 (.error ()) (.error ())
      (by norm_num [is_trending_cache_stale, TRENDING_CACHE_TTL]),
   getTrendingData_cases.2.2.1 none 0 (.ok [(⟨9, "", none, none⟩ : Episode)]) rfl⟩

/-! ### C8 — response cache hit path -/

/-- C8: when the response cache resolves the fingerprint of the current
(profile, favorites, history, request) to a stored result within the
60-minute freshness window, `recommend` returns that stored result with
its cached flag set to true and makes zero language-model calls; and a
single stored row whose age is within 60 minutes does resolve. -/
theorem recommend_cache_hit :
    (∀ profile favorites history user_request cacheTable (nowMinutes : ℚ)
      queries s1 s2 s3 s4 rankings stored,
      get_cached_recommendations cacheTable
          (cacheKey profile favorites history user_request) user_request nowMinutes =
        some stored →
      recommend profile favorites history user_request cacheTable nowMinutes
          queries s1 s2 s3 s4 rankings = ({ stored with cached := true }, 0)) ∧
    (∀ (row : CacheRow) (now : ℚ), now < row.createdAtMinutes + 60 →
      get_cached_recommendations [row] row.profile_hash row.user_request now =
        some row.response) := by
  constructor
  · intro profile favorites history user_request cacheTable nowMinutes
      queries s1 s2 s3 s4 rankings stored h
    simp [recommend, h]
  · intro row now h
    simp [get_cached_recommendations, h]

/-- Concrete instantiation of `recommend_cache_hit`: a fresh cached row
for the fingerprint is returned with the cached flag set and zero model
calls. -/
theorem recommend_cache_hit_witness :
    recommend "p" "f" "h" "r"
        [{ profile_hash := cacheKey "p" "f" "h" "r", user_request := "r",
           response := { episodes := [], queries_used := ["q"], cached := false },
           createdAtMinutes := 0 }] 30 [] none none none none [] =
      ({ episodes := [], queries_used := ["q"], cached := true }, 0) :=
  recommend_cache_hit.1 "p" "f" "h" "r" _ 30 [] none none none none []
    { episodes := [], queries_used := ["q"], cached := false }
    (by
      simp [get_cached_recommendations, List.find?]
      norm_num)

end PodDiscover
